import Mathlib

set_option maxHeartbeats 1000000

/-! Shallow embedding of the calendar-grid realignment content script
(`src/extension/content.js` and the variant in `src/unnamed/part_000`):
the Grid data model, the `startWeekOnMonday` realigner, the debounce
helper, the mutation watcher and its give-up timer, together with proofs
of the specified properties. -/

/-! ## Data model -/

/-- A day-label marker element (the aria-hidden span found inside a label
cell by `querySelector` in the code): its text content and its optional
inline `style` attribute. -/
structure Span where
  text : String
  style : Option String
deriving DecidableEq, Repr

/-- A table cell; `span` is the first aria-hidden span descendant, if any
(what `cell.querySelector('span...')` returns in the code). -/
structure Cell where
  span : Option Span
deriving DecidableEq, Repr

/-- A table row: its ordered sequence of cells (`row.cells`). -/
structure Row where
  cells : List Cell
deriving DecidableEq, Repr

/-- The Grid: the contribution table. `marker` is the
`dataset.weekMondayCorrected` flag; `tbody` is the row list of the first
tbody descendant, when one exists (`table.querySelector('tbody')`). -/
structure Grid where
  marker : Bool
  tbody : Option (List Row)
deriving DecidableEq, Repr

/-! ## String machinery

JavaScript `s.replace(pat, repl)` with a string pattern replaces only the
first occurrence of `pat`; we embed that behaviour on the character lists
underlying `String`. -/

/-- First-occurrence textual substitution, as JavaScript
`String.prototype.replace` with a string pattern behaves: scan left to
right, replace the first match of `pat` by `repl`, leave the rest. -/
def replaceFirstList (pat repl : List Char) : List Char → List Char
  | [] => []
  | c :: cs =>
    if pat.isPrefixOf (c :: cs) then repl ++ (c :: cs).drop pat.length
    else c :: replaceFirstList pat repl cs

/-- Does `pat` occur as a contiguous substring (JS `String.includes`)? -/
def hasSub (pat : List Char) : List Char → Bool
  | [] => pat.isPrefixOf []
  | c :: cs => pat.isPrefixOf (c :: cs) || hasSub pat cs

/-- Number of positions at which `pat` matches. -/
def subCount (pat : List Char) : List Char → Nat
  | [] => 0
  | c :: cs => (if pat.isPrefixOf (c :: cs) then 1 else 0) + subCount pat cs

/-- Number of positions inside `x` at which `pat` matches in `x ++ t`. -/
def countFrom (pat : List Char) : List Char → List Char → Nat
  | [], _ => 0
  | c :: cs, t => (if pat.isPrefixOf (c :: (cs ++ t)) then 1 else 0) + countFrom pat cs t

/-- JS `s.replace(pat, repl)` (first occurrence only), on `String`. -/
def jsReplaceFirst (s pat repl : String) : String :=
  ⟨replaceFirstList pat.data repl.data s.data⟩

/-- JS `String.prototype.trim`: strip leading and trailing whitespace. -/
def jsTrim (s : String) : String :=
  ⟨((s.data.dropWhile Char.isWhitespace).reverse.dropWhile Char.isWhitespace).reverse⟩

/-- The characters of the zero-size clip directive `'Circle(0)'`. -/
def circleChars : List Char := "Circle(0)".data

/-- The characters of the replacement `'None'`. -/
def noneChars : List Char := "None".data

/-! ## The realigner -/

/-- The label span of a row: the aria-hidden span of `row.cells[0]`. -/
def rowLabelSpan (r : Row) : Option Span :=
  r.cells.head?.bind (fun c => c.span)

/-- Is the row's trimmed label text the Sunday label
(`labelSpan.textContent.trim() === 'Sun'`)? -/
def rowLabelIsSun (r : Row) : Bool :=
  match rowLabelSpan r with
  | none => false
  | some sp => (jsTrim sp.text) == "Sun"

/-- Step 2 of the mutation (content.js lines 52–55): on the relocated
row, delete the cell at index 1, but only when the row has more than one
cell (`if (newLastRow.cells.length > 1) newLastRow.deleteCell(1)`). -/
def deleteCellStep (r : Row) : Row :=
  if 1 < r.cells.length then { cells := r.cells.eraseIdx 1 } else r

/-- Step 3 of the mutation (content.js lines 60–66): re-query the label
span of the relocated row's cell 0 and, when it has a `style` attribute,
replace the first `'Circle(0)'` in it by `'None'`. -/
def unhideLabelStep (r : Row) : Row :=
  match r.cells with
  | [] => r
  | c0 :: cs =>
    match c0.span with
    | none => r
    | some sp =>
      match sp.style with
      | none => r
      | some st =>
        { cells := { span := some { text := sp.text,
                                    style := some (jsReplaceFirst st "Circle(0)" "None") } } :: cs }

/-- `startWeekOnMonday` from `src/extension/content.js` lines 10–75 (the
`src/unnamed/part_000` copy is textually identical in every guarded and
mutating statement).  Guards mirror lines 12–34; the mutation body
mirrors lines 36–69: relocating `firstRow` to the end of the tbody
(`tbody.appendChild(firstRow)`) yields `rest ++ [firstRow]`, the last row
is then cell-deleted and its label unhidden, and the marker set. -/
def startWeekOnMonday (g : Grid) : Grid :=
  if g.marker then g
  else
    match g.tbody with
    | none => g
    | some rows =>
      if rows.length ≠ 7 then g
      else
        match rows with
        | [] => g
        | firstRow :: rest =>
          if firstRow.cells.length < 2 then g
          else
            match rowLabelSpan firstRow with
            | none => g
            | some labelSpan =>
              if (jsTrim labelSpan.text) ≠ "Sun" then g
              else
                { marker := true
                  tbody := some (rest ++ [unhideLabelStep (deleteCellStep firstRow)]) }

/-- Conjunction of the four guards of `startWeekOnMonday` (lines 12–34):
no marker, a tbody with exactly 7 rows, row 0 with at least two cells,
row 0's trimmed label text equal to `'Sun'`. -/
def guardsPass (g : Grid) : Bool :=
  !g.marker &&
    (match g.tbody with
     | none => false
     | some rows =>
       (rows.length == 7) &&
         (match rows with
          | [] => false
          | r0 :: _ => decide (2 ≤ r0.cells.length) && rowLabelIsSun r0))

/-- The grid produced by the mutation body of `startWeekOnMonday` when
the guards pass: rows 1..6 shifted up, the former row 0 cell-deleted and
label-unhidden at the end, marker set. -/
def correctedGrid (g : Grid) : Grid :=
  match g.tbody with
  | some (r0 :: rest) =>
    { marker := true, tbody := some (rest ++ [unhideLabelStep (deleteCellStep r0)]) }
  | _ => g

/-! ## Observations used by the claim statements -/

/-- The trimmed label text of a row, when its label span exists. -/
def rowLabel (r : Row) : Option String :=
  (rowLabelSpan r).map (fun sp => jsTrim sp.text)

/-- The row labels of the grid, in tbody order. -/
def gridRowLabels (g : Grid) : Option (List (Option String)) :=
  g.tbody.map (fun rows => rows.map rowLabel)

/-- The style attribute of the last row's label span (after correction,
the relocated Sunday row sits last). -/
def sundayRowStyle (g : Grid) : Option String :=
  match g.tbody with
  | none => none
  | some rows =>
    match rows.getLast? with
    | none => none
    | some r =>
      match rowLabelSpan r with
      | none => none
      | some sp => sp.style

/-- The shape conditions of claim C3: no 7-row tbody, or row 0 with fewer
than two cells, or row 0's trimmed label not `'Sun'`. -/
def shapeGuardFails (g : Grid) : Bool :=
  match g.tbody with
  | none => true
  | some rows =>
    !(rows.length == 7) ||
      (match rows with
       | [] => true
       | r0 :: _ => decide (r0.cells.length < 2) || !(rowLabelIsSun r0))

/-- No row after row 0 carries the Sunday label. -/
def tailNotSun (g : Grid) : Bool :=
  match g.tbody with
  | none => true
  | some rows => rows.tail.all (fun r => !rowLabelIsSun r)

/-! ## Fault-injection semantics of the try block

The four statements of the `try` block (content.js lines 36–69) executed
one by one, so that a host-environment exception raised before any one of
them can be modelled: the statements before the fault take effect, the
`catch` absorbs the exception and logs `errLog`, and control returns. -/

/-- The error line logged by the `catch` handler (content.js line 73). -/
def errLog : String := "[Contribution Graph Realignment] Error during mutation:"

/-- `tbody.appendChild(firstRow)`: move row 0 to the end. -/
def relocateStep : List Row → List Row
  | [] => []
  | r :: rs => rs ++ [r]

/-- `newLastRow.deleteCell(1)` guarded by the cell count, applied to the
last row (`tbody.rows[tbody.rows.length - 1]`). -/
def deleteLastStep (rows : List Row) : List Row :=
  match rows.getLast? with
  | none => rows
  | some lastRow => rows.dropLast ++ [deleteCellStep lastRow]

/-- Style patching of the last row's label span. -/
def unhideLastStep (rows : List Row) : List Row :=
  match rows.getLast? with
  | none => rows
  | some lastRow => rows.dropLast ++ [unhideLabelStep lastRow]

/-- The `i`-th statement of the try block (0 relocate, 1 delete,
2 unhide, 3 set marker). -/
def tryStep : Nat → Grid → Grid
  | 0, g => { g with tbody := g.tbody.map relocateStep }
  | 1, g => { g with tbody := g.tbody.map deleteLastStep }
  | 2, g => { g with tbody := g.tbody.map unhideLastStep }
  | _, g => { g with marker := true }

/-- Execute the first `k` statements of the try block in order. -/
def tryBlockUpTo : Nat → Grid → Grid
  | 0, g => g
  | k + 1, g => tryStep k (tryBlockUpTo k g)

/-- `startWeekOnMonday` under fault injection: `fail = some k` means the
host raises an exception at statement `k` of the try block (before it
takes effect); the `catch` absorbs it and logs `errLog`.  `fail = none`
is the fault-free run.  Returns the resulting grid and the console log. -/
def startWeekOnMondayFI (fail : Option (Fin 4)) (g : Grid) : Grid × List String :=
  if guardsPass g then
    match fail with
    | none => (tryBlockUpTo 4 g, [])
    | some k => (tryBlockUpTo k.val g, [errLog])
  else (g, [])

/-- Did this invocation execute the relocation statement (statement 0)?
It did exactly when the guards passed and the fault, if any, hit a later
statement. -/
def relocationsOf (fail : Option (Fin 4)) (g : Grid) : Nat :=
  if guardsPass g && (match fail with | none => true | some k => decide (1 ≤ k.val)) then 1
  else 0

/-- A sequence of invocations with per-invocation fault oracles,
accumulating the number of relocations performed. -/
def runSeq : List (Option (Fin 4)) → Grid → Grid × Nat
  | [], g => (g, 0)
  | f :: fs, g =>
    let r := runSeq fs (startWeekOnMondayFI f g).1
    (r.1, relocationsOf f g + r.2)

/-! ## Watcher state

The page as the watcher sees it: the grid currently in the document (the
`querySelector('.ContributionCalendar-grid')` result), whether
`part_000`'s `activeObserver` is non-null, and the number of registered
`observer.observe` subscriptions on `document.body`. -/

structure PageState where
  grid : Option Grid
  active : Bool
  subCount : Nat
deriving DecidableEq, Repr

/-- `handleMutations`: locate the table and realign it when present. -/
def handleMutations (p : PageState) : PageState :=
  match p.grid with
  | none => p
  | some t => { p with grid := some (startWeekOnMonday t) }

namespace Ext

/-- `observeTable` from `src/extension/content.js` lines 101–128: one
immediate detection pass, then unconditionally register a new observer
subscription — there is no already-running guard in this variant. -/
def observeTable (p : PageState) : PageState :=
  let p1 := handleMutations p
  { p1 with subCount := p1.subCount + 1 }

end Ext

namespace Part0

/-- `observeTable` from `src/unnamed/part_000` lines 111–129: return
immediately when `activeObserver` is already set, otherwise run one
detection pass and register a subscription. -/
def observeTable (p : PageState) : PageState :=
  if p.active then p
  else
    let p1 := handleMutations p
    { p1 with active := true, subCount := p1.subCount + 1 }

/-- The give-up timer body from `src/unnamed/part_000` lines 133–138: at
the end of the 5s window, if an observer is still active and no target
table is present in the document *now*, disconnect it. -/
def giveUpTimer (p : PageState) : PageState :=
  if p.active && p.grid.isNone then
    { p with active := false, subCount := p.subCount - 1 }
  else p

end Part0

/-- Page activity between watcher start and the give-up deadline: the
host renders or removes the calendar table, or a (debounced) detection
pass fires. -/
inductive PageEvent
  | setGrid (g : Grid)
  | removeGrid
  | check
deriving DecidableEq, Repr

/-- One event step, also tracking the ghost flag "a target table has been
found by some detection pass since start". -/
def applyEvent : PageState × Bool → PageEvent → PageState × Bool
  | (p, f), PageEvent.setGrid g => ({ p with grid := some g }, f)
  | (p, f), PageEvent.removeGrid => ({ p with grid := none }, f)
  | (p, f), PageEvent.check => (handleMutations p, f || p.grid.isSome)

/-- Run a trace of page events from a start state; the Boolean result is
whether any detection pass found a table. -/
def runEvents (p : PageState) (es : List PageEvent) : PageState × Bool :=
  es.foldl applyEvent (p, false)

/-! ## The debounce timer world

`debounce(func, wait)` (content.js lines 82–92) owns a single closure
variable `timeout`.  We model the host timer table explicitly: `live` is
the list of scheduled, uncancelled, unfired timeout ids; each call of the
debounced function does `clearTimeout(timeout); timeout = setTimeout(...)`,
and a firing timer runs `later`, which is `clearTimeout(timeout);
func(...)` in the `src/extension/content.js` variant (`part_000`'s
`later` omits the redundant inner clear, which is a no-op by then). -/

structure DebWorld where
  live : List Nat
  nextId : Nat
  timeoutVar : Option Nat
  runs : Nat
deriving DecidableEq, Repr

/-- Before any call: no timer scheduled, `func` never run. -/
def initWorld : DebWorld := { live := [], nextId := 0, timeoutVar := none, runs := 0 }

/-- `clearTimeout(t)`: cancel the timer when it is still scheduled. -/
def clearTimeoutOp (w : DebWorld) (t : Option Nat) : DebWorld :=
  match t with
  | none => w
  | some i => { w with live := w.live.erase i }

/-- One call of the debounced function (`executedFunction` in the code):
cancel the pending timer and schedule a fresh one. -/
def executedFunction (w : DebWorld) : DebWorld :=
  let w1 := clearTimeoutOp w w.timeoutVar
  { w1 with live := w1.live ++ [w1.nextId], timeoutVar := some w1.nextId,
            nextId := w1.nextId + 1 }

/-- The host fires timer `i`, if it is still scheduled: the timer is
spent, `later` clears the (already spent) id and runs `func`. -/
def fireTimer (w : DebWorld) (i : Nat) : DebWorld :=
  if i ∈ w.live then
    let w1 := { w with live := w.live.erase i }
    let w2 := clearTimeoutOp w1 w1.timeoutVar
    { w2 with runs := w2.runs + 1 }
  else w

/-- `n` notifications in a row, each arriving before the pending delay
elapses (no timer fires in between). -/
def burst : Nat → DebWorld
  | 0 => initWorld
  | n + 1 => executedFunction (burst n)

/-! ## Concrete grids

`testRows`/`testGrid` mirror the fixture built by `src/tests/verify.js`
(`createTestTable`): seven rows Sun..Sat, each a label cell plus two data
cells, the Sunday label styled with the zero-size clip directive. -/

/-- A row with label text `d`, label style `sty`, and `extra` data cells. -/
def dayRow (d : String) (sty : Option String) (extra : Nat) : Row :=
  { cells := { span := some { text := d, style := sty } } :: List.replicate extra { span := none } }

/-- The Sunday row of the `verify.js` fixture. -/
def testSunRow : Row := dayRow "Sun" (some "clip-path: Circle(0); position: absolute;") 2

/-- Rows 1..6 (Mon..Sat) of the `verify.js` fixture. -/
def testTail : List Row :=
  [ dayRow "Mon" (some "clip-path: None; position: absolute;") 2,
    dayRow "Tue" (some "clip-path: None; position: absolute;") 2,
    dayRow "Wed" (some "clip-path: None; position: absolute;") 2,
    dayRow "Thu" (some "clip-path: None; position: absolute;") 2,
    dayRow "Fri" (some "clip-path: None; position: absolute;") 2,
    dayRow "Sat" (some "clip-path: None; position: absolute;") 2 ]

/-- The rows of the `verify.js` fixture. -/
def testRows : List Row := testSunRow :: testTail

/-- The `verify.js` fixture grid. -/
def testGrid : Grid := { marker := false, tbody := some testRows }

/-- A guard-passing grid whose rows 1..6 are not labelled Mon..Sat in
order (the guards never inspect them). -/
def scrambledGrid : Grid :=
  { marker := false
    tbody := some
      [ dayRow "Sun" none 2, dayRow "Fri" none 2, dayRow "Tue" none 2,
        dayRow "Wed" none 2, dayRow "Thu" none 2, dayRow "Mon" none 2,
        dayRow "Sat" none 2 ] }

/-- A grid with only six rows (fails the 7-row guard). -/
def sixRowGrid : Grid :=
  { marker := false
    tbody := some
      [ dayRow "Sun" none 2, dayRow "Mon" none 2, dayRow "Tue" none 2,
        dayRow "Wed" none 2, dayRow "Thu" none 2, dayRow "Fri" none 2 ] }

/-- A guard-passing grid whose Sunday label style carries the zero-size
clip directive twice. -/
def doubleClipGrid : Grid :=
  { marker := false
    tbody := some
      [ dayRow "Sun" (some "Circle(0)Circle(0)") 2, dayRow "Mon" none 2,
        dayRow "Tue" none 2, dayRow "Wed" none 2, dayRow "Thu" none 2,
        dayRow "Fri" none 2, dayRow "Sat" none 2 ] }

/-- A pathological grid: all seven rows carry the Sunday label. -/
def dupSunGrid : Grid :=
  { marker := false, tbody := some (List.replicate 7 (dayRow "Sun" none 2)) }

/-- The page state right after a fresh watcher start on a page with no
calendar table. -/
def startedPage : PageState := { grid := none, active := true, subCount := 1 }

/-- A trace in which the table appears, is found by a detection pass, and
is removed again before the give-up deadline. -/
def c9Trace : List PageEvent :=
  [PageEvent.setGrid testGrid, PageEvent.check, PageEvent.removeGrid]

/-! ## General lemmas about the realigner -/

/-- Complete characterization of `startWeekOnMonday`: it either performs
the full correction (when all four guards pass) or returns its argument
untouched. -/
theorem swm_eq (g : Grid) :
    startWeekOnMonday g = if guardsPass g then correctedGrid g else g := by
  rcases g with ⟨mk, tb⟩
  unfold startWeekOnMonday guardsPass correctedGrid
  cases mk with
  | true => simp
  | false =>
    cases tb with
    | none => simp
    | some rows =>
      cases rows with
      | nil => simp
      | cons r0 rest =>
        by_cases h7 : (r0 :: rest).length = 7
        · by_cases hc : r0.cells.length < 2
          · simp [h7, hc, Nat.not_le.mpr hc]
          · cases hsp : rowLabelSpan r0 with
            | none => simp [h7, hc, rowLabelIsSun, hsp]
            | some sp =>
              by_cases hl : jsTrim sp.text = "Sun"
              · simp [h7, hc, rowLabelIsSun, hsp, hl, Nat.not_lt.mp hc]
              · simp [h7, hc, rowLabelIsSun, hsp, hl]
        · have h6 : ¬rest.length = 6 := by
            intro h; exact h7 (by simp [h])
          simp [h6]

/-- When a guard fails, the grid is returned untouched. -/
theorem swm_of_guardsFail {g : Grid} (h : guardsPass g = false) :
    startWeekOnMonday g = g := by
  rw [swm_eq, h]; rfl

/-- When the guards pass, the result is the fully corrected grid. -/
theorem swm_of_guardsPass {g : Grid} (h : guardsPass g = true) :
    startWeekOnMonday g = correctedGrid g := by
  rw [swm_eq, h]; rfl

/-- Destructor for a passing guard conjunction. -/
theorem guardsPass_elim {g : Grid} (h : guardsPass g = true) :
    g.marker = false ∧ ∃ r0 rest, g.tbody = some (r0 :: rest) ∧ rest.length = 6 ∧
      2 ≤ r0.cells.length ∧ rowLabelIsSun r0 = true := by
  rcases g with ⟨mk, tb⟩
  cases mk with
  | true => simp [guardsPass] at h
  | false =>
    cases tb with
    | none => simp [guardsPass] at h
    | some rows =>
      cases rows with
      | nil => simp [guardsPass] at h
      | cons r0 rest =>
        simp [guardsPass] at h
        exact ⟨rfl, r0, rest, rfl, h.1, h.2.1, h.2.2⟩

/-- A marked grid never passes the guards. -/
theorem guardsFail_of_marker {g : Grid} (h : g.marker = true) : guardsPass g = false := by
  simp [guardsPass, h]

/-- A grid whose first row is not Sunday-labelled never passes the
guards. -/
theorem guardsFail_of_headNotSun {g : Grid} {rh : Row} {l : List Row}
    (ht : g.tbody = some (rh :: l)) (hr : rowLabelIsSun rh = false) :
    guardsPass g = false := by
  rcases g with ⟨mk, tb⟩
  simp only at ht
  subst ht
  simp [guardsPass, hr]

/-- A row with at least two cells splits into two cells and a remainder. -/
theorem cells_two_of_le {r : Row} (h : 2 ≤ r.cells.length) :
    ∃ c0 c1 cs, r.cells = c0 :: c1 :: cs := by
  rcases r with ⟨cells⟩
  cases cells with
  | nil => simp at h
  | cons c0 rest =>
    cases rest with
    | nil => simp at h
    | cons c1 cs => exact ⟨c0, c1, cs, rfl⟩

/-- `unhideLabelStep` rewrites at most the head cell, preserving its
label text and the remaining cells. -/
theorem unhideLabelStep_cons (c0 : Cell) (cs : List Cell) :
    ∃ c0' : Cell, unhideLabelStep { cells := c0 :: cs } = { cells := c0' :: cs } ∧
      (c0'.span).map Span.text = (c0.span).map Span.text := by
  cases hsp : c0.span with
  | none => exact ⟨c0, by simp [unhideLabelStep, hsp], by rw [hsp]⟩
  | some sp =>
    cases hst : sp.style with
    | none => exact ⟨c0, by simp [unhideLabelStep, hsp, hst], by rw [hsp]⟩
    | some st =>
      refine ⟨⟨some ⟨sp.text, some (jsReplaceFirst st "Circle(0)" "None")⟩⟩, ?_, ?_⟩
      · simp [unhideLabelStep, hsp, hst]
      · simp [hsp]

/-- `unhideLabelStep` on a row whose head cell carries a styled span:
the style is textually patched, the text kept. -/
theorem unhideLabelStep_style {c0 : Cell} {cs : List Cell} {sp : Span} {st : String}
    (hsp : c0.span = some sp) (hst : sp.style = some st) :
    unhideLabelStep { cells := c0 :: cs } =
      { cells := ⟨some ⟨sp.text, some (jsReplaceFirst st "Circle(0)" "None")⟩⟩ :: cs } := by
  simp [unhideLabelStep, hsp, hst]

/-- On the relocated Sunday row (which the guards guarantee to have at
least two cells), the delete-and-unhide pair removes exactly one cell
and preserves the trimmed label. -/
theorem sunRow_props {r0 : Row} (h2 : 2 ≤ r0.cells.length) :
    (unhideLabelStep (deleteCellStep r0)).cells.length + 1 = r0.cells.length ∧
    rowLabel (unhideLabelStep (deleteCellStep r0)) = rowLabel r0 := by
  obtain ⟨c0, c1, cs, hc⟩ := cells_two_of_le h2
  have h1 : 1 < r0.cells.length := by omega
  have hdel : deleteCellStep r0 = { cells := c0 :: cs } := by
    simp [deleteCellStep, h1, hc]
  obtain ⟨c0', hstep, htext⟩ := unhideLabelStep_cons c0 cs
  rw [hdel, hstep]
  refine ⟨by simp [hc], ?_⟩
  simp only [rowLabel, rowLabelSpan, hc, List.head?_cons, Option.bind_some]
  cases hs' : c0'.span with
  | none => cases hs : c0.span <;> simp [hs', hs] at htext ⊢
  | some sp' =>
    cases hs : c0.span with
    | none => simp [hs', hs] at htext
    | some sp => simp [hs', hs] at htext ⊢; rw [htext]

/-- A Sunday-labelled row has trimmed label `'Sun'`. -/
theorem rowLabel_of_isSun {r : Row} (h : rowLabelIsSun r = true) : rowLabel r = some "Sun" := by
  unfold rowLabelIsSun at h
  cases hsp : rowLabelSpan r with
  | none => rw [hsp] at h; simp at h
  | some sp =>
    rw [hsp] at h
    simp only [beq_iff_eq] at h
    simp [rowLabel, hsp, h]

/-! ## Claim theorems (C1–C4) -/

/-- C1 (amended): for every Grid passing all four guards, after
`startWeekOnMonday` the six non-Sunday rows keep their relative order and
labels, followed by the relocated `'Sun'` row; when rows 1..6 were
labelled Mon..Sat in order, the labels afterwards read Mon, Tue, Wed,
Thu, Fri, Sat, Sun in order. -/
theorem c1_rowOrder (g : Grid) (rows : List Row)
    (ht : g.tbody = some rows) (hg : guardsPass g = true) :
    gridRowLabels (startWeekOnMonday g) = some (rows.tail.map rowLabel ++ [some "Sun"]) ∧
    (rows.tail.map rowLabel =
        [some "Mon", some "Tue", some "Wed", some "Thu", some "Fri", some "Sat"] →
      gridRowLabels (startWeekOnMonday g) =
        some [some "Mon", some "Tue", some "Wed", some "Thu", some "Fri",
              some "Sat", some "Sun"]) := by
  obtain ⟨hm, r0, rest, ht', h6, h2, hsun⟩ := guardsPass_elim hg
  have hrows : rows = r0 :: rest := by
    rw [ht] at ht'; exact Option.some.inj ht'
  have hcor : startWeekOnMonday g =
      { marker := true, tbody := some (rest ++ [unhideLabelStep (deleteCellStep r0)]) } := by
    rw [swm_of_guardsPass hg]; simp [correctedGrid, ht']
  have hlab : rowLabel (unhideLabelStep (deleteCellStep r0)) = some "Sun" := by
    rw [(sunRow_props h2).2]; exact rowLabel_of_isSun hsun
  constructor
  · rw [hcor]
    simp [gridRowLabels, hrows, hlab]
  · intro hmon
    rw [hrows] at hmon
    simp only [List.tail_cons] at hmon
    rw [hcor]
    simp [gridRowLabels, hmon, hlab]

/-- C1 counterexample: a grid that passes all four guards but whose rows
1..6 are not Mon..Sat; after `startWeekOnMonday` the labels do not read
Mon..Sun. -/
theorem c1_counterexample :
    guardsPass scrambledGrid = true ∧
    gridRowLabels (startWeekOnMonday scrambledGrid) ≠
      some [some "Mon", some "Tue", some "Wed", some "Thu", some "Fri",
            some "Sat", some "Sun"] := by
  decide

/-- C1 witness: on the well-formed fixture grid the amended theorem
yields the Mon..Sun label order. -/
theorem c1_witness :
    gridRowLabels (startWeekOnMonday testGrid) =
      some [some "Mon", some "Tue", some "Wed", some "Thu", some "Fri",
            some "Sat", some "Sun"] :=
  (c1_rowOrder testGrid testRows rfl (by decide)).2 (by decide)

/-- C2: for every guard-passing Grid, the non-relocated rows are returned
unchanged (same rows, same order), the relocated Sunday row has exactly
one fewer cell with its label preserved, and the delete step never
touches a row with one or fewer cells. -/
theorem c2_cellCounts (g : Grid) (hg : guardsPass g = true) :
    ∃ r0 rest sunRow,
      g.tbody = some (r0 :: rest) ∧
      (startWeekOnMonday g).tbody = some (rest ++ [sunRow]) ∧
      sunRow.cells.length + 1 = r0.cells.length ∧
      rowLabel sunRow = rowLabel r0 ∧
      1 < r0.cells.length ∧
      ∀ r : Row, r.cells.length ≤ 1 → deleteCellStep r = r := by
  obtain ⟨hm, r0, rest, ht, h6, h2, hsun⟩ := guardsPass_elim hg
  refine ⟨r0, rest, unhideLabelStep (deleteCellStep r0), ht, ?_,
    (sunRow_props h2).1, (sunRow_props h2).2, by omega, ?_⟩
  · rw [swm_of_guardsPass hg]; simp [correctedGrid, ht]
  · intro r hr
    unfold deleteCellStep
    rw [if_neg (by omega)]

/-- C2 witness: instantiation at the fixture grid. -/
theorem c2_witness :
    ∃ r0 rest sunRow,
      testGrid.tbody = some (r0 :: rest) ∧
      (startWeekOnMonday testGrid).tbody = some (rest ++ [sunRow]) ∧
      sunRow.cells.length + 1 = r0.cells.length ∧
      rowLabel sunRow = rowLabel r0 ∧
      1 < r0.cells.length ∧
      ∀ r : Row, r.cells.length ≤ 1 → deleteCellStep r = r :=
  c2_cellCounts testGrid (by decide)

/-- C3: a Grid without a 7-row tbody, or whose row 0 has fewer than two
cells or is not labelled `'Sun'`, is returned completely unmodified —
in particular the correction marker is not set. -/
theorem c3_frame (g : Grid) (h : shapeGuardFails g = true) :
    startWeekOnMonday g = g := by
  cases hgp : guardsPass g with
  | false => exact swm_of_guardsFail hgp
  | true =>
    exfalso
    obtain ⟨hm, r0, rest, ht, h6, h2, hsun⟩ := guardsPass_elim hgp
    rw [shapeGuardFails, ht] at h
    simp [h6, Nat.not_lt.mpr h2, hsun] at h

/-- C3 witness: a six-row grid is left untouched. -/
theorem c3_witness : startWeekOnMonday sixRowGrid = sixRowGrid :=
  c3_frame sixRowGrid (by decide)

/-- C4: `startWeekOnMonday` is idempotent on every Grid; after a
successful (guard-passing) first call the marker is set, so the second
call returns without mutating anything. -/
theorem c4_idempotent (g : Grid) :
    startWeekOnMonday (startWeekOnMonday g) = startWeekOnMonday g ∧
    (guardsPass g = true → (startWeekOnMonday g).marker = true) := by
  cases hg : guardsPass g with
  | false =>
    rw [swm_of_guardsFail hg]
    exact ⟨swm_of_guardsFail hg, fun h => Bool.noConfusion h⟩
  | true =>
    obtain ⟨hm, r0, rest, ht, h6, h2, hsun⟩ := guardsPass_elim hg
    have hmk : (startWeekOnMonday g).marker = true := by
      rw [swm_of_guardsPass hg]; simp [correctedGrid, ht]
    exact ⟨swm_of_guardsFail (guardsFail_of_marker hmk), fun _ => hmk⟩

/-- C4 witness: instantiation at the fixture grid. -/
theorem c4_witness :
    startWeekOnMonday (startWeekOnMonday testGrid) = startWeekOnMonday testGrid ∧
    (startWeekOnMonday testGrid).marker = true :=
  ⟨(c4_idempotent testGrid).1, (c4_idempotent testGrid).2 (by decide)⟩

/-! ## String lemmas for the style patch -/

/-- Definitional unfolding of `List.isPrefixOf` on two conses. -/
theorem cons_isPrefixOf_cons (c y : Char) (cs ys : List Char) :
    (c :: cs).isPrefixOf (y :: ys) = (c == y && cs.isPrefixOf ys) := rfl

/-- A list is a prefix of itself followed by anything. -/
theorem isPrefixOf_app_self : ∀ (p t : List Char), p.isPrefixOf (p ++ t) = true
  | [], _ => List.isPrefixOf_nil_left
  | p :: ps, t => by
    rw [List.cons_append, cons_isPrefixOf_cons]
    simp [isPrefixOf_app_self ps t]

/-- A Boolean prefix yields a decomposition. -/
theorem isPrefixOf_ex : ∀ (p s : List Char), p.isPrefixOf s = true → ∃ t, s = p ++ t
  | [], s, _ => ⟨s, rfl⟩
  | _ :: _, [], h => Bool.noConfusion h
  | p :: ps, c :: cs, h => by
    rw [cons_isPrefixOf_cons, Bool.and_eq_true] at h
    obtain ⟨t, ht⟩ := isPrefixOf_ex ps cs h.2
    refine ⟨t, ?_⟩
    rw [ht, List.cons_append, eq_of_beq h.1]

/-- Position counting splits over an append. -/
theorem subCount_append (pat t : List Char) :
    ∀ x : List Char, subCount pat (x ++ t) = countFrom pat x t + subCount pat t := by
  intro x
  induction x with
  | nil => simp [countFrom]
  | cons c cs ih =>
    show subCount pat (c :: (cs ++ t)) = countFrom pat (c :: cs) t + subCount pat t
    rw [subCount, countFrom, ih, Nat.add_assoc]

/-- Without an occurrence, the first-occurrence replacement is the
identity. -/
theorem replaceFirst_id {pat repl : List Char} :
    ∀ s, hasSub pat s = false → replaceFirstList pat repl s = s := by
  intro s
  induction s with
  | nil => intro _; rfl
  | cons c cs ih =>
    intro h
    rw [hasSub] at h
    simp only [Bool.or_eq_false_iff] at h
    rw [replaceFirstList, if_neg (by simp [h.1]), ih h.2]

/-- With an occurrence, the first-occurrence replacement decomposes the
input around the first match: nothing before it matches, the match is
swapped for `repl`, everything after it is untouched. -/
theorem replaceFirst_decomp {pat repl : List Char} (hne : pat ≠ []) :
    ∀ s, hasSub pat s = true →
      ∃ a b, s = a ++ pat ++ b ∧ replaceFirstList pat repl s = a ++ repl ++ b ∧
        countFrom pat a (pat ++ b) = 0 := by
  intro s
  induction s with
  | nil =>
    intro h
    rw [hasSub] at h
    cases pat with
    | nil => exact absurd rfl hne
    | cons p ps => exact Bool.noConfusion h
  | cons c cs ih =>
    intro h
    cases hp : pat.isPrefixOf (c :: cs) with
    | true =>
      obtain ⟨t, ht⟩ := isPrefixOf_ex pat (c :: cs) hp
      refine ⟨[], t, by simpa using ht, ?_, rfl⟩
      rw [replaceFirstList, if_pos hp, ht, List.drop_left]
      simp
    | false =>
      have h' : hasSub pat cs = true := by
        rw [hasSub, hp] at h; simpa using h
      obtain ⟨a, b, hs, hr, hcf⟩ := ih h'
      refine ⟨c :: a, b, ?_, ?_, ?_⟩
      · rw [hs]; simp
      · rw [replaceFirstList, if_neg (by simp [hp]), hr]; simp
      · have heq : a ++ (pat ++ b) = cs := by rw [hs, List.append_assoc]
        rw [countFrom, heq, hp]
        simpa using hcf

/-- Zero matches is the same as no occurrence. -/
theorem subCount_zero_iff {pat : List Char} (hne : pat ≠ []) :
    ∀ s, subCount pat s = 0 ↔ hasSub pat s = false := by
  intro s
  induction s with
  | nil =>
    cases pat with
    | nil => exact absurd rfl hne
    | cons p ps => simp [subCount, hasSub]
  | cons c cs ih =>
    rw [subCount, hasSub]
    cases hp : pat.isPrefixOf (c :: cs) with
    | true => simp [hp]
    | false => simp [hp, ih]

/-- Straddle exclusion: when `x` does not occur in `pat`, a match of
`pat` inside `u ++ x :: v` cannot reach `x`, so the continuation after
`u` is irrelevant. -/
theorem isPrefixOf_avoid {x : Char} (v w : List Char) :
    ∀ p : List Char, x ∉ p → ∀ u : List Char,
      p.isPrefixOf (u ++ x :: v) = true → p.isPrefixOf (u ++ w) = true := by
  intro p
  induction p with
  | nil => intro _ u _; exact List.isPrefixOf_nil_left
  | cons pc ps ih =>
    intro hx u h
    cases u with
    | nil =>
      simp only [List.nil_append] at h
      rw [cons_isPrefixOf_cons, Bool.and_eq_true] at h
      have hpc : pc = x := eq_of_beq h.1
      exact absurd (hpc ▸ List.mem_cons_self pc ps) hx
    | cons a u' =>
      simp only [List.cons_append] at h ⊢
      rw [cons_isPrefixOf_cons, Bool.and_eq_true] at h
      rw [cons_isPrefixOf_cons, Bool.and_eq_true]
      have hx' : x ∉ ps := fun hm => hx (List.mem_cons_of_mem _ hm)
      exact ⟨h.1, ih hx' u' h.2⟩

/-- If no position of `a` matches against continuation `t`, none matches
against a continuation starting with a character absent from `pat`. -/
theorem countFrom_swap {x : Char} {pat : List Char} (hx : x ∉ pat) (t r : List Char) :
    ∀ a : List Char, countFrom pat a t = 0 → countFrom pat a (x :: r) = 0 := by
  intro a
  induction a with
  | nil => intro _; rfl
  | cons c cs ih =>
    intro h
    rw [countFrom] at h
    cases hp : pat.isPrefixOf (c :: (cs ++ t)) with
    | true => rw [hp] at h; simp at h
    | false =>
      rw [hp] at h
      simp only [Bool.false_eq_true, if_false, Nat.zero_add] at h
      rw [countFrom]
      have hg1 : pat.isPrefixOf (c :: (cs ++ x :: r)) = false := by
        cases hq : pat.isPrefixOf (c :: (cs ++ x :: r)) with
        | false => rfl
        | true =>
          exfalso
          have hq' : pat.isPrefixOf ((c :: cs) ++ x :: r) = true := by
            rw [List.cons_append]; exact hq
          have h3 := isPrefixOf_avoid r t pat hx (c :: cs) hq'
          rw [List.cons_append] at h3
          rw [h3] at hp; exact Bool.noConfusion hp
      rw [hg1]
      simp [ih h]

/-- No position of the replacement text `'None'` can start a match of
`'Circle(0)'`, whatever follows. -/
theorem countFrom_none_zero (b : List Char) : countFrom circleChars noneChars b = 0 := rfl

/-- When the whole string is `pat ++ b` and carries exactly one match,
`b` carries none. -/
theorem subCount_tail_zero {pat : List Char} (hne : pat ≠ []) (b : List Char)
    (h : subCount pat (pat ++ b) = 1) : subCount pat b = 0 := by
  rw [subCount_append] at h
  have h1 : 1 ≤ countFrom pat pat b := by
    cases pat with
    | nil => exact absurd rfl hne
    | cons p ps =>
      rw [countFrom]
      have hpp : (p :: ps).isPrefixOf (p :: (ps ++ b)) = true := by
        have := isPrefixOf_app_self (p :: ps) b
        rwa [List.cons_append] at this
      rw [hpp]
      simp
  omega

/-- The key fact behind the amended C5: when `'Circle(0)'` occurs exactly
once, its first-occurrence replacement by `'None'` leaves a string with
no occurrence at all (no new occurrence can straddle the replacement,
since `'N'` does not occur in `'Circle(0)'`). -/
theorem replaceCircle_once_gone (s : List Char)
    (h1 : subCount circleChars s = 1) :
    hasSub circleChars (replaceFirstList circleChars noneChars s) = false := by
  have hne : circleChars ≠ [] := by decide
  have hhas : hasSub circleChars s = true := by
    cases hh : hasSub circleChars s with
    | true => rfl
    | false =>
      have := (subCount_zero_iff hne s).mpr hh
      omega
  obtain ⟨a, b, hs, hr, hcf⟩ := replaceFirst_decomp hne s hhas
  rw [hr, ← subCount_zero_iff hne]
  rw [List.append_assoc, subCount_append, subCount_append]
  have hb : subCount circleChars b = 0 := by
    apply subCount_tail_zero hne
    rw [hs, List.append_assoc, subCount_append, hcf] at h1
    simpa using h1
  have ha : countFrom circleChars a (noneChars ++ b) = 0 := by
    have hN : 'N' ∉ circleChars := by decide
    have hsplit : noneChars ++ b = 'N' :: ("one".data ++ b) := rfl
    rw [hsplit]
    exact countFrom_swap hN (circleChars ++ b) ("one".data ++ b) a hcf
  rw [ha, countFrom_none_zero, hb]

/-! ## Claim theorems (C5) -/

/-- C5 (amended): for every guard-passing Grid whose Sunday label span
carries a style attribute, the relocated row's style is the original with
its *first* occurrence of `'Circle(0)'` replaced by `'None'`: a style
without the directive is unchanged, a style with it splits around the
first match with everything else preserved, and when the directive occurs
exactly once the resulting style no longer contains it anywhere. -/
theorem c5_styleFix (g : Grid) (r0 : Row) (rest : List Row) (sp : Span) (st : String)
    (ht : g.tbody = some (r0 :: rest)) (hg : guardsPass g = true)
    (hsp : rowLabelSpan r0 = some sp) (hst : sp.style = some st) :
    sundayRowStyle (startWeekOnMonday g) = some (jsReplaceFirst st "Circle(0)" "None") ∧
    (hasSub circleChars st.data = false →
      sundayRowStyle (startWeekOnMonday g) = some st) ∧
    (hasSub circleChars st.data = true →
      ∃ a b, st.data = a ++ circleChars ++ b ∧
        (jsReplaceFirst st "Circle(0)" "None").data = a ++ noneChars ++ b) ∧
    (subCount circleChars st.data = 1 →
      hasSub circleChars (jsReplaceFirst st "Circle(0)" "None").data = false) := by
  obtain ⟨hm, r0', rest', ht', h6, h2, hsun⟩ := guardsPass_elim hg
  rw [ht] at ht'
  injection ht' with hlist
  injection hlist with hhead htail
  subst hhead; subst htail
  obtain ⟨c0, c1, cs, hc⟩ := cells_two_of_le h2
  have hc0 : c0.span = some sp := by
    rw [rowLabelSpan, hc] at hsp
    simpa using hsp
  have hdel : deleteCellStep r0 = { cells := c0 :: cs } := by
    simp [deleteCellStep, hc]
  have hstyle : unhideLabelStep (deleteCellStep r0) =
      { cells := ⟨some ⟨sp.text, some (jsReplaceFirst st "Circle(0)" "None")⟩⟩ :: cs } := by
    rw [hdel]; exact unhideLabelStep_style hc0 hst
  have hmain : sundayRowStyle (startWeekOnMonday g) =
      some (jsReplaceFirst st "Circle(0)" "None") := by
    rw [swm_of_guardsPass hg]
    simp [correctedGrid, ht, sundayRowStyle, hstyle, rowLabelSpan, List.getLast?_concat]
  refine ⟨hmain, ?_, ?_, ?_⟩
  · intro hno
    rw [hmain]
    have : jsReplaceFirst st "Circle(0)" "None" = st := by
      show (⟨replaceFirstList circleChars noneChars st.data⟩ : String) = st
      rw [replaceFirst_id st.data hno]
    rw [this]
  · intro hyes
    have hne : circleChars ≠ [] := by decide
    obtain ⟨a, b, hs, hr, _⟩ := replaceFirst_decomp hne st.data hyes
    exact ⟨a, b, hs, hr⟩
  · intro honce
    exact replaceCircle_once_gone st.data honce

/-- C5 counterexample: a guard-passing grid whose Sunday label style
contains the zero-size clip directive twice; after `startWeekOnMonday`
the style still contains the directive (only the first occurrence was
replaced). -/
theorem c5_counterexample :
    guardsPass doubleClipGrid = true ∧
    hasSub circleChars "Circle(0)Circle(0)".data = true ∧
    sundayRowStyle (startWeekOnMonday doubleClipGrid) = some "NoneCircle(0)" ∧
    hasSub circleChars "NoneCircle(0)".data = true := by decide

/-- C5 witness: on the fixture grid (directive occurs exactly once) the
resulting Sunday style is the patched one and no longer contains the
directive. -/
theorem c5_witness :
    sundayRowStyle (startWeekOnMonday testGrid) =
      some (jsReplaceFirst "clip-path: Circle(0); position: absolute;" "Circle(0)" "None") ∧
    hasSub circleChars
      (jsReplaceFirst "clip-path: Circle(0); position: absolute;" "Circle(0)" "None").data
      = false := by
  have h := c5_styleFix testGrid testSunRow testTail
      ⟨"Sun", some "clip-path: Circle(0); position: absolute;"⟩
      "clip-path: Circle(0); position: absolute;" rfl (by decide) rfl rfl
  exact ⟨h.1, h.2.2.2 (by decide)⟩

/-! ## The try block step by step (C6, C10) -/

/-- Explicit form of the partial executions of the try block on a grid
with a non-empty tbody. -/
theorem tryBlock_steps {g : Grid} {r0 : Row} {rest : List Row}
    (ht : g.tbody = some (r0 :: rest)) :
    tryBlockUpTo 1 g = { g with tbody := some (rest ++ [r0]) } ∧
    tryBlockUpTo 2 g = { g with tbody := some (rest ++ [deleteCellStep r0]) } ∧
    tryBlockUpTo 3 g
        = { g with tbody := some (rest ++ [unhideLabelStep (deleteCellStep r0)]) } ∧
    tryBlockUpTo 4 g
        = { marker := true,
            tbody := some (rest ++ [unhideLabelStep (deleteCellStep r0)]) } := by
  have h1 : tryBlockUpTo 1 g = { g with tbody := some (rest ++ [r0]) } := by
    show tryStep 0 (tryBlockUpTo 0 g) = _
    simp [tryBlockUpTo, tryStep, relocateStep, ht]
  have h2 : tryBlockUpTo 2 g = { g with tbody := some (rest ++ [deleteCellStep r0]) } := by
    show tryStep 1 (tryBlockUpTo 1 g) = _
    rw [h1]
    simp [tryStep, deleteLastStep, List.getLast?_concat, List.dropLast_concat]
  have h3 : tryBlockUpTo 3 g
      = { g with tbody := some (rest ++ [unhideLabelStep (deleteCellStep r0)]) } := by
    show tryStep 2 (tryBlockUpTo 2 g) = _
    rw [h2]
    simp [tryStep, unhideLastStep, List.getLast?_concat, List.dropLast_concat]
  have h4 : tryBlockUpTo 4 g
      = { marker := true, tbody := some (rest ++ [unhideLabelStep (deleteCellStep r0)]) } := by
    show tryStep 3 (tryBlockUpTo 3 g) = _
    rw [h3]
    rfl
  exact ⟨h1, h2, h3, h4⟩

/-- The fault-free fault-injection run coincides with the direct
embedding of `startWeekOnMonday`. -/
theorem swmFI_none (g : Grid) : (startWeekOnMondayFI none g).1 = startWeekOnMonday g := by
  cases hg : guardsPass g with
  | false => rw [swm_of_guardsFail hg]; simp [startWeekOnMondayFI, hg]
  | true =>
    obtain ⟨hm, r0, rest, ht, h6, h2, hsun⟩ := guardsPass_elim hg
    rw [swm_of_guardsPass hg]
    have h4 := (tryBlock_steps ht).2.2.2
    simp [startWeekOnMondayFI, hg, h4, correctedGrid, ht]

/-- A failing guard makes the fault-injection run a silent no-op. -/
theorem swmFI_guardFail {g : Grid} (h : guardsPass g = false) (f : Option (Fin 4)) :
    startWeekOnMondayFI f g = (g, []) := by
  simp [startWeekOnMondayFI, h]

/-- A failing guard means no relocation. -/
theorem relocationsOf_guardFail {g : Grid} (h : guardsPass g = false) (f : Option (Fin 4)) :
    relocationsOf f g = 0 := by
  simp [relocationsOf, h]

/-- A grid stuck at a guard stays stuck for a whole sequence. -/
theorem runSeq_guardFail {g : Grid} (h : guardsPass g = false) :
    ∀ fs, runSeq fs g = (g, 0) := by
  intro fs
  induction fs with
  | nil => rfl
  | cons f fs ih =>
    simp [runSeq, swmFI_guardFail h, relocationsOf_guardFail h, ih]

/-! ## Claim theorems (C6–C10) -/

/-- C6: whatever try-block statement a host exception hits, the call
returns (the exception is absorbed), the correction marker is left
exactly as it was — in particular unset when the guards had passed — and
when the guards had passed the error is logged with the distinguishing
prefix. -/
theorem c6_errorHandling (g : Grid) (k : Fin 4) :
    (startWeekOnMondayFI (some k) g).1.marker = g.marker ∧
    (guardsPass g = true → (startWeekOnMondayFI (some k) g).2 = [errLog]) := by
  cases hg : guardsPass g with
  | false => simp [startWeekOnMondayFI, hg]
  | true =>
    obtain ⟨hm, r0, rest, ht, h6, h2, hsun⟩ := guardsPass_elim hg
    obtain ⟨t1, t2, t3, t4⟩ := tryBlock_steps ht
    refine ⟨?_, fun _ => by simp [startWeekOnMondayFI, hg]⟩
    fin_cases k
    · simp [startWeekOnMondayFI, hg, tryBlockUpTo]
    · simp [startWeekOnMondayFI, hg, t1]
    · simp [startWeekOnMondayFI, hg, t2]
    · simp [startWeekOnMondayFI, hg, t3]

/-- C6 witness: a fault at the delete statement on the fixture grid is
absorbed, logged, and leaves the marker unset. -/
theorem c6_witness :
    (startWeekOnMondayFI (some 1) testGrid).1.marker = testGrid.marker ∧
    (startWeekOnMondayFI (some 1) testGrid).2 = [errLog] :=
  ⟨(c6_errorHandling testGrid 1).1, (c6_errorHandling testGrid 1).2 (by decide)⟩

/-- C7 (amended): the `part_000` variant of `observeTable` is idempotent
— while a watcher is active the call is a no-op (so no second
subscription is registered), and a double start equals a single start. -/
theorem c7_guardedIdempotent :
    (∀ p : PageState, p.active = true → Part0.observeTable p = p) ∧
    (∀ p : PageState, Part0.observeTable (Part0.observeTable p) = Part0.observeTable p) := by
  have h1 : ∀ p : PageState, p.active = true → Part0.observeTable p = p := by
    intro p hp
    simp [Part0.observeTable, hp]
  refine ⟨h1, ?_⟩
  intro p
  cases hp : p.active with
  | true => rw [h1 p hp, h1 p hp]
  | false =>
    apply h1
    simp [Part0.observeTable, hp]

/-- C7 counterexample: the `src/extension/content.js` variant of
`observeTable` has no already-running guard; calling it again while a
watcher is already running registers a second subscription instead of
being a no-op. -/
theorem c7_counterexample :
    (Ext.observeTable { grid := none, active := false, subCount := 0 }).subCount = 1 ∧
    (Ext.observeTable
        (Ext.observeTable { grid := none, active := false, subCount := 0 })).subCount = 2 := by
  decide

/-- C7 witness: a running `part_000` watcher absorbs a second start. -/
theorem c7_witness :
    Part0.observeTable { grid := none, active := true, subCount := 1 }
      = { grid := none, active := true, subCount := 1 } :=
  c7_guardedIdempotent.1 { grid := none, active := true, subCount := 1 } rfl

/-- Closed form of `n + 1` debounced calls in a burst: exactly one timer
is pending — the freshest — and the function has not run. -/
theorem burst_spec : ∀ n : Nat, burst (n + 1) =
    { live := [n], nextId := n + 1, timeoutVar := some n, runs := 0 } := by
  intro n
  induction n with
  | zero => rfl
  | succ m ih =>
    show executedFunction (burst (m + 1)) = _
    rw [ih]
    simp [executedFunction, clearTimeoutOp, List.erase_cons_head]

/-- C8: `n ≥ 1` relevant notifications all arriving within the debounce
window leave exactly one pending scheduled check (at most one exists at
every point of the burst), and when it fires the realign handler runs
exactly once — not `n` times. -/
theorem c8_debounce (n : Nat) (h : 1 ≤ n) :
    (burst n).live.length = 1 ∧
    (fireTimer (burst n) (n - 1)).runs = 1 ∧
    (∀ k : Nat, (burst k).live.length ≤ 1) := by
  obtain ⟨m, rfl⟩ : ∃ m, n = m + 1 := ⟨n - 1, by omega⟩
  refine ⟨by rw [burst_spec m]; rfl, ?_, ?_⟩
  · rw [burst_spec m]
    show (fireTimer _ (m + 1 - 1)).runs = 1
    simp [fireTimer, clearTimeoutOp]
  · intro k
    cases k with
    | zero => simp [burst, initWorld]
    | succ j => rw [burst_spec j]; simp

/-- C8 witness: a burst of three notifications, then the pending timer
fires: one pending check, one run. -/
theorem c8_witness :
    (burst 3).live.length = 1 ∧ (fireTimer (burst 3) 2).runs = 1 :=
  ⟨(c8_debounce 3 (by decide)).1, (c8_debounce 3 (by decide)).2.1⟩

/-- C9 (amended): whatever happened during the window, the give-up timer
tears the subscription down exactly when an observer is still active and
no target table is present in the document *at the deadline* — current
presence, not whether a table was ever found since start — and it acts
only after checking that the observer is still active. -/
theorem c9_giveUp (p : PageState) (es : List PageEvent) :
    (Part0.giveUpTimer (runEvents p es).1).active
        = ((runEvents p es).1.active && ((runEvents p es).1.grid).isSome) ∧
    ((Part0.giveUpTimer (runEvents p es).1).active = false ∧ (runEvents p es).1.active = true ↔
      (runEvents p es).1.active = true ∧ (runEvents p es).1.grid = none) := by
  rcases hq : (runEvents p es).1 with ⟨gq, aq, sq⟩
  cases aq <;> cases gq <;> simp [Part0.giveUpTimer]

/-- C9 counterexample: the table appears, is found by a detection pass,
and is removed again before the deadline; the give-up timer still tears
the watcher down even though a target table *had* been found since
start, refuting the "if and only if never found" formulation. -/
theorem c9_counterexample :
    (runEvents (Part0.observeTable { grid := none, active := false, subCount := 0 }) c9Trace).2
        = true ∧
    (runEvents (Part0.observeTable { grid := none, active := false, subCount := 0 })
        c9Trace).1.active = true ∧
    (Part0.giveUpTimer
        (runEvents (Part0.observeTable { grid := none, active := false, subCount := 0 })
          c9Trace).1).active = false := by
  decide

/-- A failing guard means the invocation returns at a guard without
mutating (used for C10's retry argument). -/
theorem swmFI_headNotSun {g : Grid} {rh : Row} {l : List Row} (f : Option (Fin 4))
    (ht : g.tbody = some (rh :: l)) (hr : rowLabelIsSun rh = false) :
    startWeekOnMondayFI f g = (g, []) :=
  swmFI_guardFail (guardsFail_of_headNotSun ht hr) f

/-- C10 (amended): on a Grid none of whose rows after row 0 carries the
Sunday label, at most one relocation ever happens across any sequence of
invocations with any pattern of injected faults: once the relocation has
run, row 0 is no longer Sunday-labelled, so every later invocation
returns at a guard without mutating the Grid. -/
theorem c10_atMostOne (g : Grid) (fs : List (Option (Fin 4)))
    (h : tailNotSun g = true) :
    (runSeq fs g).2 ≤ 1 := by
  induction fs generalizing g h with
  | nil => simp [runSeq]
  | cons f fs ih =>
    cases hg : guardsPass g with
    | false =>
      simp [runSeq, swmFI_guardFail hg, relocationsOf_guardFail hg]
      exact ih g h
    | true =>
      obtain ⟨hm, r0, rest, ht, h6, h2, hsun⟩ := guardsPass_elim hg
      obtain ⟨t1, t2, t3, t4⟩ := tryBlock_steps ht
      obtain ⟨rh, rt, hrest⟩ : ∃ rh rt, rest = rh :: rt := by
        cases rest with
        | nil => simp at h6
        | cons a b => exact ⟨a, b, rfl⟩
      have hrh : rowLabelIsSun rh = false := by
        simp only [tailNotSun, ht, List.tail_cons, hrest, List.all_cons,
          Bool.and_eq_true] at h
        simpa using h.1
      cases f with
      | none =>
        have hmk : (tryBlockUpTo 4 g).marker = true := by rw [t4]
        have hgf : guardsPass (tryBlockUpTo 4 g) = false := guardsFail_of_marker hmk
        simp [runSeq, startWeekOnMondayFI, hg, runSeq_guardFail hgf, relocationsOf]
      | some k =>
        rcases k with ⟨kv, hlt⟩
        by_cases hk : 1 ≤ kv
        · have hstuck : guardsPass (tryBlockUpTo kv g) = false := by
            interval_cases kv
            · have htb : (tryBlockUpTo 1 g).tbody = some (rh :: (rt ++ [r0])) := by
                rw [t1, hrest]; simp
              exact guardsFail_of_headNotSun htb hrh
            · have htb : (tryBlockUpTo 2 g).tbody
                  = some (rh :: (rt ++ [deleteCellStep r0])) := by
                rw [t2, hrest]; simp
              exact guardsFail_of_headNotSun htb hrh
            · have htb : (tryBlockUpTo 3 g).tbody
                  = some (rh :: (rt ++ [unhideLabelStep (deleteCellStep r0)])) := by
                rw [t3, hrest]; simp
              exact guardsFail_of_headNotSun htb hrh
          simp [runSeq, startWeekOnMondayFI, hg, runSeq_guardFail hstuck, relocationsOf, hk]
        · have hk0 : kv = 0 := by omega
          subst hk0
          have hFI : (startWeekOnMondayFI (some ⟨0, hlt⟩) g).1 = g := by
            simp [startWeekOnMondayFI, hg, tryBlockUpTo]
          have hrel : relocationsOf (some ⟨0, hlt⟩) g = 0 := by
            simp [relocationsOf]
          calc (runSeq (some ⟨0, hlt⟩ :: fs) g).2
              = relocationsOf (some ⟨0, hlt⟩) g
                  + (runSeq fs (startWeekOnMondayFI (some ⟨0, hlt⟩) g).1).2 := rfl
            _ = (runSeq fs g).2 := by rw [hrel, hFI, Nat.zero_add]
            _ ≤ 1 := ih g h

/-- C10 counterexample: on a grid all of whose rows are Sunday-labelled,
a run in which the relocation succeeds but a later statement throws (so
the marker stays unset) followed by a clean retry performs *two*
relocations. -/
theorem c10_counterexample : (runSeq [some 1, none] dupSunGrid).2 = 2 := by decide

/-- C10 witness: two clean invocations on the fixture grid still perform
at most one relocation. -/
theorem c10_witness : (runSeq [none, none] testGrid).2 ≤ 1 :=
  c10_atMostOne testGrid [none, none] (by decide)
